import Mathlib

/-!
Verification development for the Novogene download web application's task
orchestrator (`src/scripts/download_manager.py`).

The Python module is shallowly embedded: the `DownloadManager` state becomes
the `Manager` structure; the worker thread `_download_worker` becomes a list
of atomic task mutations (`Mut`) computed from an environment (`WorkerEnv`)
describing the outcomes of the external `lnd` subprocess invocations and of
the validation stage; interleaving with `cancel_download` is modelled by a
schedule of events applied by a small-step runner.  Floats are modelled as
rationals, `datetime.now()` as an abstract tick (`Nat`), and filesystem /
subprocess side effects as environment data.
-/

namespace NovoDL

/-- `DownloadStatus` enum of `download_manager.py`. -/
inductive DownloadStatus where
  | pending
  | loggingIn
  | listing
  | downloading
  | validating
  | completed
  | failed
  | cancelled
deriving DecidableEq, Repr

/-- The terminal-status check used by `cancel_download` and `remove_task`:
`status in [COMPLETED, FAILED, CANCELLED]`. -/
def DownloadStatus.isTerminal : DownloadStatus → Bool
  | .completed => true
  | .failed => true
  | .cancelled => true
  | _ => false

/-- `NovoGeneInfo` dataclass of `email_parser.py` (the fields used by the
download manager plus the remaining string payload). -/
structure NovoGeneInfo where
  data_path : String
  username : String
  password : String
  release_date : String := ""
  expire_date : String := ""
  total_size : String := ""
  sample_count : String := ""
  sample_names : String := ""
  batch_info : String := ""
  notes : String := ""
deriving DecidableEq, Repr

/-- `DownloadTask` dataclass of `download_manager.py`.  `datetime` values are
modelled as abstract `Nat` ticks, `float` progress as a rational. -/
structure DownloadTask where
  task_id : String
  info : NovoGeneInfo
  download_dir : String
  status : DownloadStatus := .pending
  progress : ℚ := 0
  current_step : String := ""
  log_messages : List String := []
  start_time : Option Nat := none
  end_time : Option Nat := none
  error_message : String := ""
  downloaded_files : List String := []
deriving DecidableEq, Repr

/-- The clamp applied by `_update_progress`: `min(100.0, max(0.0, progress))`. -/
def clampQ (p : ℚ) : ℚ := min 100 (max 0 p)

/-- A log entry as formatted by `_log_message`: timestamp prefix plus message
(the `datetime.now().strftime` timestamp is modelled by the tick). -/
def logLine (now : Nat) (msg : String) : String :=
  "[" ++ toString now ++ "] " ++ msg

/-- Log append with the truncation of `_log_message`: after appending, if the
length exceeds 1000 the log is replaced by its last 800 entries
(`task.log_messages[-800:]`). -/
def logAppend (log : List String) (entry : String) : List String :=
  let l := log ++ [entry]
  if l.length > 1000 then l.drop (l.length - 800) else l

/-- Field update performed by `_log_message` on a task. -/
def taskLog (now : Nat) (msg : String) (t : DownloadTask) : DownloadTask :=
  { t with log_messages := logAppend t.log_messages (logLine now msg) }

/-- Field update performed by `_update_task_status`: sets `status`, and sets
`current_step` only when the step string is nonempty (`if step:`). -/
def taskSetStatus (s : DownloadStatus) (step : String) (t : DownloadTask) :
    DownloadTask :=
  { t with status := s, current_step := if step = "" then t.current_step else step }

/-- Field updates performed by `_set_task_failed`: status := FAILED, the error
message, `end_time := now`, then the failure log line. -/
def taskFail (now : Nat) (msg : String) (t : DownloadTask) : DownloadTask :=
  taskLog now ("任务失败: " ++ msg)
    { t with status := .failed, error_message := msg, end_time := some now }

/-- CPython's whitespace predicate (`Py_UNICODE_ISSPACE`), the set both
`str.split()` (no argument) and `str.strip()` (no argument) use; verified
against CPython to be exactly these code points. -/
def pySpace (c : Char) : Bool :=
  let n := c.toNat
  (9 ≤ n && n ≤ 13) || (28 ≤ n && n ≤ 32) || n == 133 || n == 160 ||
    n == 0x1680 || (0x2000 ≤ n && n ≤ 0x200A) || n == 0x2028 ||
    n == 0x2029 || n == 0x202F || n == 0x205F || n == 0x3000

/-- Python `str.strip()` on a character list: leading and trailing
whitespace (the `pySpace` set) removed. -/
def stripChars (cs : List Char) : List Char :=
  ((cs.dropWhile pySpace).reverse.dropWhile pySpace).reverse

/-- Python `str.split()` (no argument) on a character list: maximal nonempty
runs of non-`pySpace` characters.  `acc` holds the current run, reversed. -/
def splitWsAux : List Char → List Char → List (List Char)
  | [], acc => if acc.isEmpty then [] else [acc.reverse]
  | c :: cs, acc =>
      if pySpace c then
        if acc.isEmpty then splitWsAux cs []
        else acc.reverse :: splitWsAux cs []
      else splitWsAux cs (c :: acc)

/-- Result of CPython `float(token)` on the percent token: a finite value
(the exact rational denoted by the decimal; the double rounding performed by
CPython is below the granularity of any claim), an infinity (written out, or
produced by saturation of an out-of-range decimal), or a NaN. -/
inductive PyFloat where
  | finite (q : ℚ)
  | posInf
  | negInf
  | nan
deriving DecidableEq, Repr

def asciiLower (c : Char) : Char :=
  if 'A' ≤ c && c ≤ 'Z' then Char.ofNat (c.toNat + 32) else c

/-- Value of a digit string. -/
def digitsVal (ds : List Char) : Nat :=
  ds.foldl (fun a c => a * 10 + (c.toNat - 48)) 0

/-- Greedy continuation of a Python `digitpart` — `digit (["_"] digit)*`,
single underscores allowed between digits only: returns the digits (with
underscores dropped) and the unconsumed rest.  The caller checks that the
first character is a digit. -/
def takeDigitPart : List Char → List Char × List Char
  | [] => ([], [])
  | c :: cs =>
      if c.isDigit then
        let p := takeDigitPart cs
        (c :: p.1, p.2)
      else if c = '_' then
        match cs with
        | d :: cs2 =>
            if d.isDigit then
              let p := takeDigitPart cs2
              (d :: p.1, p.2)
            else ([], c :: cs)
        | [] => ([], [c])
      else ([], c :: cs)

/-- Python float `number`: `digitpart ["." [digitpart]] | "." digitpart`
(at least one digit); returns the exact value and the rest of the token. -/
def parseMantissa (cs : List Char) : Option (ℚ × List Char) :=
  let ipr :=
    match cs with
    | c :: _ => if c.isDigit then takeDigitPart cs else ([], cs)
    | [] => (([] : List Char), ([] : List Char))
  match ipr.2 with
  | '.' :: rest1 =>
      let fpr :=
        match rest1 with
        | d :: _ => if d.isDigit then takeDigitPart rest1 else ([], rest1)
        | [] => (([] : List Char), ([] : List Char))
      if ipr.1.isEmpty && fpr.1.isEmpty then none
      else
        some ((digitsVal ipr.1 : ℚ) +
          (digitsVal fpr.1 : ℚ) / ((10 : ℚ) ^ fpr.1.length), fpr.2)
  | _ =>
      if ipr.1.isEmpty then none else some ((digitsVal ipr.1 : ℚ), ipr.2)

/-- Python float `exponent`: `("e" | "E") [sign] digitpart`, or nothing;
returns the exponent and the rest of the token. -/
def parseExponent (cs : List Char) : Option (Int × List Char) :=
  match cs with
  | c :: rest0 =>
      if c = 'e' || c = 'E' then
        let sr : Int × List Char :=
          match rest0 with
          | '+' :: r => (1, r)
          | '-' :: r => (-1, r)
          | r => (1, r)
        match sr.2 with
        | d :: _ =>
            if d.isDigit then
              let dp := takeDigitPart sr.2
              some (sr.1 * (digitsVal dp.1 : Int), dp.2)
            else none
        | [] => none
      else some (0, cs)
  | [] => some (0, [])

/-- The saturation threshold of CPython's string-to-double conversion:
a decimal whose absolute value is at least `2^1024 - 2^970` converts to an
infinity (verified against CPython: `float` of that exact integer is `inf`
and one less is finite); smaller values convert to the nearest double,
modelled here by the exact rational. -/
def pyOverflow : ℚ :=
  179769313486231580793728971405303415079934132710037826936173778980444968292764750946649017977587207096330286416692887910946555547851940402630657488671505820681908902000708383676273854845817711531764475730270069855571366959622842914819860834936475292719074168444365510704342711559699508093042880177904174497792

/-- CPython `float(token)` on an ASCII token: optional sign; `inf`,
`infinity` or `nan`, case-insensitively; otherwise a decimal number with
optional underscores between digits, fractional part and exponent, the
whole token consumed, saturating to the infinities beyond `pyOverflow`.
`none` is a `ValueError`, which the bare `except` in `_download_files`
turns into "leave progress unchanged".  CPython additionally maps Unicode
decimal digits to ASCII before parsing; tokens containing non-ASCII
characters are outside this model, and the theorems that conclude from a
parse failure therefore restrict themselves to ASCII tokens. -/
def parsePyFloat (cs0 : List Char) : Option PyFloat :=
  let sgn : Bool × List Char :=
    match cs0 with
    | '-' :: r => (true, r)
    | '+' :: r => (false, r)
    | r => (false, r)
  let low := sgn.2.map asciiLower
  if low = ['i', 'n', 'f'] || low = ['i', 'n', 'f', 'i', 'n', 'i', 't', 'y'] then
    some (if sgn.1 then .negInf else .posInf)
  else if low = ['n', 'a', 'n'] then some .nan
  else
    match parseMantissa sgn.2 with
    | none => none
    | some mr =>
        match parseExponent mr.2 with
        | none => none
        | some er =>
            if er.2.isEmpty then
              let v := mr.1 * (10 : ℚ) ^ er.1
              if pyOverflow ≤ v then some (if sgn.1 then .negInf else .posInf)
              else some (.finite (if sgn.1 then -v else v))
            else none

/-- `line.split("%")[0].split()[-1]`: the last whitespace-token of the text
before the first `%`; `none` is Python's IndexError on an empty token list,
caught by the bare `except`. -/
def percentToken (l : List Char) : Option (List Char) :=
  (splitWsAux (l.takeWhile (· ≠ '%')) []).getLast?

/-- `float(line.split("%")[0].split()[-1])` of `_download_files`. -/
def parsePercent (l : List Char) : Option PyFloat :=
  match percentToken l with
  | none => none
  | some t => parsePyFloat t

/-- Token made of ASCII characters only — the domain on which
`parsePyFloat` is an exact model of CPython `float()`. -/
def isAsciiToken (t : List Char) : Bool := t.all (fun c => c.toNat < 128)

/-- The value `30.0 + (percent / 100.0) * 60.0` that `_download_files`
hands to `_update_progress`, computed in IEEE arithmetic: finite in, finite
out; infinities and NaN propagate through the affine map. -/
inductive PyQ where
  | fin (q : ℚ)
  | posInf
  | negInf
  | nan
deriving DecidableEq, Repr

def pyProg : PyFloat → PyQ
  | .finite q => .fin (30 + (q / 100) * 60)
  | .posInf => .posInf
  | .negInf => .negInf
  | .nan => .nan

/-- `min(100.0, max(0.0, progress))` of `_update_progress`, under CPython
`min`/`max` semantics with IEEE comparisons: `max(0.0, x)` keeps `0.0`
unless `x > 0.0`, so NaN and `-inf` yield `0.0`, while `+inf` yields
`min(100.0, inf) = 100.0` (verified against CPython). -/
def pyClamp : PyQ → ℚ
  | .fin q => clampQ q
  | .posInf => 100
  | .negInf => 0
  | .nan => 0

/-- Field update performed by `_update_progress`: clamped write. -/
def taskSetProgress (p : PyQ) (t : DownloadTask) : DownloadTask :=
  { t with progress := pyClamp p }

/-- Outcome of the `subprocess.run` call in `_login`: a completed run with
return code and stderr, a `TimeoutExpired` (handled separately there), or any
other exception. -/
inductive LoginOutcome where
  | res (returncode : Int) (stderr : String)
  | timeout
  | exn (msg : String)
deriving DecidableEq, Repr

/-- Outcome of `_list_files`' body: a completed `lnd list` run, or any
exception (its `except` clause is generic, so a timeout is just an
exception here). -/
inductive ListOutcome where
  | res (returncode : Int) (stderr : String)
  | exn (msg : String)
deriving DecidableEq, Repr

/-- Outcome of `_download_files`' body: the `lnd cp` process ran and emitted
`lines` (each a stripped stdout line) before exiting with `returncode`, or
some exception was raised. -/
inductive DownloadOutcome where
  | run (lines : List String) (returncode : Int)
  | exn (msg : String)
deriving DecidableEq, Repr

/-- Outcome of `_validate_files`' body: the md5 discovery walk found
`md5Files`, each checked by `md5sum -c` with the corresponding return code in
`md5Rcs`, and the final walk counted `fileCount` files; or an exception was
raised by the initial `os.chdir` (the earliest fallible operation). -/
inductive ValidateOutcome where
  | ok (md5Files : List String) (md5Rcs : List Int) (fileCount : Nat)
  | exn (msg : String)
deriving DecidableEq, Repr

/-- Environment of one `_download_worker` run: outcomes of the four stages'
external effects, plus the tick standing for `datetime.now()`. -/
structure WorkerEnv where
  now : Nat
  login : LoginOutcome
  listing : ListOutcome
  download : DownloadOutcome
  validate : ValidateOutcome
deriving DecidableEq, Repr

/-- One atomic mutation the worker (or a stage helper) performs on its task.
`procSpawn` / `procExit` track the lifetime of the `subprocess.Popen` child
of `_download_files`. -/
inductive Mut where
  | setStart (now : Nat)
  | setStatus (s : DownloadStatus) (step : String)
  | setProgress (p : PyQ)
  | log (now : Nat) (msg : String)
  | fail (now : Nat) (msg : String)
  | setEnd (now : Nat)
  | procSpawn
  | procExit
deriving DecidableEq, Repr

/-- Task state together with whether the task's transfer child process is
currently running. -/
structure TaskProc where
  task : DownloadTask
  procRunning : Bool := false
deriving DecidableEq, Repr

/-- Apply one atomic mutation, exactly as the corresponding Python helper
mutates the shared `DownloadTask`. -/
def applyMut (s : TaskProc) : Mut → TaskProc
  | .setStart n => { s with task := { s.task with start_time := some n } }
  | .setStatus st step => { s with task := taskSetStatus st step s.task }
  | .setProgress p => { s with task := taskSetProgress p s.task }
  | .log n m => { s with task := taskLog n m s.task }
  | .fail n m => { s with task := taskFail n m s.task }
  | .setEnd n => { s with task := { s.task with end_time := some n } }
  | .procSpawn => { s with procRunning := true }
  | .procExit => { s with procRunning := false }

/-- Mutations of `_login` after the status write, by outcome
(`if result.returncode == 0`). -/
def loginMuts (now : Nat) : LoginOutcome → List Mut
  | .res rc stderr =>
      if rc = 0 then [.log now "登录成功", .setProgress (.fin 20)]
      else [.fail now ("登录失败: " ++ stderr)]
  | .timeout => [.fail now "登录超时"]
  | .exn m => [.fail now ("登录异常: " ++ m)]

def loginOk : LoginOutcome → Bool
  | .res rc _ => rc == 0
  | _ => false

/-- Mutations of `_list_files` (the `file_list.txt` write is a filesystem
effect outside the task record). -/
def listMuts (now : Nat) : ListOutcome → List Mut
  | .res rc stderr =>
      if rc = 0 then [.log now "文件列表获取成功", .setProgress (.fin 30)]
      else [.fail now ("列出文件失败: " ++ stderr)]
  | .exn m => [.fail now ("列出文件异常: " ++ m)]

def listOk : ListOutcome → Bool
  | .res rc _ => rc == 0
  | _ => false

/-- Mutations of `_download_files` for one stdout line: log the stripped
line; then, if it contains `%`, try the percent parse and on success write
`30 + (percent / 100) * 60`; a parse failure does nothing (`except: pass`). -/
def lineMuts (now : Nat) (line : String) : List Mut :=
  let l := stripChars line.toList
  Mut.log now (String.mk l) ::
    (if l.contains '%' then
      match parsePercent l with
      | some v => [Mut.setProgress (pyProg v)]
      | none => []
    else [])

/-- Mutations of `_download_files`, by outcome. -/
def downloadMuts (now : Nat) : DownloadOutcome → List Mut
  | .run lines rc =>
      Mut.procSpawn :: (lines.flatMap (lineMuts now) ++ [Mut.procExit] ++
        (if rc = 0 then [Mut.log now "文件下载完成", Mut.setProgress (.fin 90)]
         else [Mut.fail now "下载失败"]))
  | .exn m => [.fail now ("下载异常: " ++ m)]

def dlOk : DownloadOutcome → Bool
  | .run _ rc => rc == 0
  | .exn _ => false

/-- Mutations of `_validate_files`, by outcome; an exception only logs a
warning and never fails the task. -/
def validateMuts (now : Nat) : ValidateOutcome → List Mut
  | .ok md5Files md5Rcs fileCount =>
      (if md5Files.isEmpty then [Mut.log now "未找到MD5文件"]
       else
         Mut.log now ("找到MD5文件: " ++ String.intercalate ", " md5Files) ::
           (md5Files.zip md5Rcs).flatMap (fun p =>
             [Mut.log now
               (if p.2 = 0 then "MD5验证通过: " ++ p.1
                else "MD5验证失败: " ++ p.1)])) ++
      [Mut.log now ("下载文件总数: " ++ toString fileCount), Mut.setProgress (.fin 100)]
  | .exn m => [.log now ("验证过程中出现警告: " ++ m)]

/-- The full sequence of task mutations performed by `_download_worker` for a
given environment: start-time write, then the stage pipeline, each stage
entered only when the previous one returned `True`. -/
def workerMuts (e : WorkerEnv) : List Mut :=
  [Mut.setStart e.now, Mut.setStatus .loggingIn "正在登录..."] ++
    loginMuts e.now e.login ++
    (if loginOk e.login then
      Mut.setStatus .listing "正在列出文件..." :: listMuts e.now e.listing ++
        (if listOk e.listing then
          Mut.setStatus .downloading "正在下载文件..." ::
            downloadMuts e.now e.download ++
            (if dlOk e.download then
              Mut.setStatus .validating "正在验证文件..." ::
                validateMuts e.now e.validate ++
                [Mut.setStatus .completed "下载完成", Mut.setEnd e.now,
                 Mut.log e.now ("任务完成，耗时: " ++ toString (e.now - e.now))]
            else [])
        else [])
    else [])

/-- `cancel_download`'s effect on the task itself when the status is
non-terminal: status := CANCELLED (step argument empty) plus the log line.
It touches nothing else — in particular not the child process. -/
def cancelAction (now : Nat) (s : TaskProc) : TaskProc :=
  if s.task.status.isTerminal then s
  else { s with task := taskLog now "任务已取消" (taskSetStatus .cancelled "" s.task) }

/-- Successive task states along a mutation list (head = initial state). -/
def statesFrom (s : TaskProc) : List Mut → List TaskProc
  | [] => [s]
  | m :: ms => s :: statesFrom (applyMut s m) ms

/-- Final task state after a mutation list. -/
def runMuts (s : TaskProc) (ms : List Mut) : TaskProc :=
  ms.foldl applyMut s

/-- A schedule event: `step` lets the worker apply its next mutation,
`cancel n` is an external `cancel_download` arriving at tick `n`. -/
inductive Ev where
  | step
  | cancel (now : Nat)
deriving DecidableEq, Repr

/-- Small-step interleaving of the worker's mutation list with external
cancellation requests; returns the successive states (head = initial). -/
def schedStates (s : TaskProc) (ms : List Mut) : List Ev → List TaskProc
  | [] => [s]
  | Ev.step :: evs =>
      match ms with
      | [] => s :: schedStates s [] evs
      | m :: ms' => s :: schedStates (applyMut s m) ms' evs
  | Ev.cancel n :: evs => s :: schedStates (cancelAction n s) ms evs

/-- Association-list model of the `self.tasks` dict.  `storeGet` is dict
lookup; `storeSet` is dict assignment (replaces in place if the key exists,
appends otherwise — insertion order preserved, as Python dicts do);
`storeModify` is an in-place field mutation of the record under a key. -/
def storeGet : List (String × DownloadTask) → String → Option DownloadTask
  | [], _ => none
  | p :: ps, k => if p.1 = k then some p.2 else storeGet ps k

def storeSet : List (String × DownloadTask) → String → DownloadTask →
    List (String × DownloadTask)
  | [], k, v => [(k, v)]
  | p :: ps, k, v => if p.1 = k then (k, v) :: ps else p :: storeSet ps k v

def storeModify : List (String × DownloadTask) → String →
    (DownloadTask → DownloadTask) → List (String × DownloadTask)
  | [], _, _ => []
  | p :: ps, k, f => if p.1 = k then (p.1, f p.2) :: ps else p :: storeModify ps k f

/-- `DownloadManager` state: tool path, the task dict, and the
`_running_tasks` thread registry (a spawned worker thread is modelled by its
task id being registered there). -/
structure Manager where
  lnd_cmd : String := "/home/maolp/mao/Biosoft/lnd"
  tasks : List (String × DownloadTask) := []
  running : List String := []
deriving DecidableEq, Repr

/-- `create_task`: id from the integer epoch second and the username, the
directory `mkdir` is a filesystem effect, the fresh record is stored
(`self.tasks[task_id] = task` — overwriting any record under the same key),
then the creation line is logged onto it. -/
def create_task (m : Manager) (info : NovoGeneInfo) (download_dir : String)
    (now : Nat) : String × Manager :=
  let task_id := "task_" ++ toString now ++ "_" ++ info.username
  let t : DownloadTask := { task_id := task_id, info := info,
                            download_dir := download_dir }
  let m' := { m with tasks := storeSet m.tasks task_id t }
  let ts := storeModify m'.tasks task_id (taskLog now ("任务创建: " ++ task_id))
  (task_id, { m' with tasks := ts })

/-- `start_download`: `avail` is the result of `_check_lnd_command` (the
`os.path.exists` / `os.access` filesystem probe).  On the success path a
worker thread is spawned and registered in `_running_tasks`. -/
def start_download (m : Manager) (task_id : String) (avail : Bool)
    (now : Nat) : Bool × Manager :=
  match storeGet m.tasks task_id with
  | none => (false, m)
  | some t =>
      if t.status ≠ .pending then (false, m)
      else if !avail then
        let ts := storeModify m.tasks task_id (taskFail now "lnd命令不可用")
        (false, { m with tasks := ts })
      else (true, { m with running := m.running ++ [task_id] })

/-- `cancel_download`: fails on unknown id or terminal status, otherwise
flips the status to CANCELLED and logs; nothing else is touched. -/
def cancel_download (m : Manager) (task_id : String) (now : Nat) :
    Bool × Manager :=
  match storeGet m.tasks task_id with
  | none => (false, m)
  | some t =>
      if t.status.isTerminal then (false, m)
      else
        let ts := storeModify m.tasks task_id
          (fun u => taskLog now "任务已取消" (taskSetStatus .cancelled "" u))
        (true, { m with tasks := ts })

/-!
Heap-indirection model for `get_all_tasks` (`return self.tasks.copy()`).
Python's `dict.copy()` is shallow: the mapping is copied, but both mappings
hold references to the same mutable `DownloadTask` objects.  The references
are made explicit: records live in a `heap` (cells addressed by `Nat`), the
dict maps ids to cell addresses, and a snapshot is a copy of that mapping —
holding the same addresses. -/

/-- The manager with record references explicit. -/
structure HManager where
  heap : List DownloadTask
  tasks : List (String × Nat)
deriving DecidableEq, Repr

def refLookup : List (String × Nat) → String → Option Nat
  | [], _ => none
  | p :: ps, k => if p.1 = k then some p.2 else refLookup ps k

/-- Dereference a record cell. -/
def readRef (m : HManager) (r : Nat) : Option DownloadTask := m.heap[r]?

/-- Mutate the record object stored in cell `r` (a Python attribute
assignment through any reference to that object). -/
def writeRef (m : HManager) (r : Nat) (t : DownloadTask) : HManager :=
  { m with heap := m.heap.set r t }

/-- `get_all_tasks`: `self.tasks.copy()` — a copy of the id→record mapping,
its entries holding the same record references. -/
def get_all_tasks (m : HManager) : List (String × Nat) := m.tasks

/-- Reading a task through the store (`self.tasks[tid]` then field reads). -/
def hGet (m : HManager) (task_id : String) : Option DownloadTask :=
  match refLookup m.tasks task_id with
  | some r => readRef m r
  | none => none

/-- Deletion of a key from the id→ref mapping. -/
def refErase : List (String × Nat) → String → List (String × Nat)
  | [], _ => []
  | p :: ps, k => if p.1 = k then refErase ps k else p :: refErase ps k

/-- `del self.tasks[task_id]` on the store's own mapping (as `remove_task`
does); a previously returned snapshot list is a separate value. -/
def hRemove (m : HManager) (task_id : String) : HManager :=
  { m with tasks := refErase m.tasks task_id }

/-- Status of the `i`-th state of a trace. -/
def statusAt (l : List TaskProc) (i : Nat) : Option DownloadStatus :=
  (l[i]?).map (fun s => s.task.status)

/-- Progress of the `i`-th state of a trace. -/
def progressAt (l : List TaskProc) (i : Nat) : Option ℚ :=
  (l[i]?).map (fun s => s.task.progress)

/-- Child-process flag of the `i`-th state of a trace. -/
def procAt (l : List TaskProc) (i : Nat) : Option Bool :=
  (l[i]?).map (fun s => s.procRunning)

/-! Concrete fixtures used by the counterexample and witness theorems. -/

def info0 : NovoGeneInfo :=
  { data_path := "/data/p", username := "u", password := "pw" }

def task0 : DownloadTask :=
  { task_id := "t", info := info0, download_dir := "/d" }

def tp0 : TaskProc := { task := task0 }

/-- A task observed mid-Downloading at progress 30. -/
def tDown : TaskProc :=
  { task := { task0 with status := .downloading, progress := 30 } }

/-- All stages succeed; the transfer prints a 50% marker then a 10% marker. -/
def envA : WorkerEnv :=
  { now := 0, login := .res 0 "", listing := .res 0 "",
    download := .run ["a 50%", "a 10%"] 0, validate := .ok [] [] 0 }

/-- All stages succeed; the transfer prints one 50% marker. -/
def envB : WorkerEnv :=
  { now := 0, login := .res 0 "", listing := .res 0 "",
    download := .run ["a 50%"] 0, validate := .ok [] [] 0 }

/-- Login, listing and transfer succeed; validation raises. -/
def envD : WorkerEnv :=
  { now := 0, login := .res 0 "", listing := .res 0 "",
    download := .run [] 0, validate := .exn "chdir error" }

/-- Schedule: the worker performs its first 10 mutations of `envB` (ending
just inside the transfer loop, child process running), an external
cancellation arrives, then the worker finishes undisturbed. -/
def evsC : List Ev :=
  List.replicate 10 Ev.step ++ [Ev.cancel 1] ++ List.replicate 11 Ev.step

/-- The interleaved trace for claims about cancellation. -/
def traceC : List TaskProc := schedStates tp0 (workerMuts envB) evsC

/-- The uninterleaved trace of `envA` for the progress claims. -/
def traceA : List TaskProc := statesFrom tp0 (workerMuts envA)

/-- An empty manager. -/
def mgr0 : Manager := {}

/-- Two `create_task` calls with the same username falling in the same epoch
second (`int(time.time()) = 100`), the first task cancelled in between. -/
def c4first : String × Manager := create_task mgr0 info0 "/d" 100

def c4cancelled : Manager := (cancel_download c4first.2 c4first.1 101).2

def c4second : String × Manager := create_task c4cancelled info0 "/d" 100

/-- Heap-model manager holding one task record in cell 0. -/
def hm0 : HManager := { heap := [task0], tasks := [("t", 0)] }

/-- The record as mutated through a reference taken from a snapshot. -/
def task0' : DownloadTask := { task0 with progress := 55 }

/-- Environment where the login subprocess times out. -/
def envT : WorkerEnv :=
  { now := 0, login := .timeout, listing := .res 0 "",
    download := .run [] 0, validate := .ok [] [] 0 }

/-- A one-task store holding the pending `task0` under id `"t"`, with one
registered worker thread handle. -/
def mgr7 : Manager := { tasks := [("t", task0)], running := ["r"] }

/-- Well-formedness of one worker mutation, as C9 needs it: a `fail` carries
a nonempty message, and a plain status write never writes `failed`. -/
def mutOk (mu : Mut) : Prop :=
  (∀ n msg, mu = .fail n msg → msg ≠ "") ∧
  (∀ st step, mu = .setStatus st step → st ≠ .failed)

/-! ### Helper lemmas -/

theorem runMuts_nil (s : TaskProc) : runMuts s [] = s := rfl

theorem runMuts_cons (s : TaskProc) (m : Mut) (ms : List Mut) :
    runMuts s (m :: ms) = runMuts (applyMut s m) ms := rfl

theorem runMuts_append (s : TaskProc) (l1 l2 : List Mut) :
    runMuts s (l1 ++ l2) = runMuts (runMuts s l1) l2 :=
  List.foldl_append _ _ _ _

theorem storeGet_storeSet (ts : List (String × DownloadTask)) (k : String)
    (v : DownloadTask) : storeGet (storeSet ts k v) k = some v := by
  induction ts with
  | nil => simp [storeGet, storeSet]
  | cons p ps ih =>
      by_cases h : p.1 = k
      · simp [storeGet, storeSet, h]
      · simp [storeGet, storeSet, h, ih]

theorem storeGet_storeModify (ts : List (String × DownloadTask)) (k : String)
    (f : DownloadTask → DownloadTask) :
    storeGet (storeModify ts k f) k = (storeGet ts k).map f := by
  induction ts with
  | nil => simp [storeGet, storeModify]
  | cons p ps ih =>
      by_cases h : p.1 = k
      · simp [storeGet, storeModify, h]
      · simp [storeGet, storeModify, h, ih]

theorem append_ne_empty (a b : String) (h : a ≠ "") : a ++ b ≠ "" := by
  intro hab
  apply h
  have hd := congrArg String.data hab
  simp at hd
  obtain ⟨h1, h2⟩ := hd
  cases a with
  | mk la =>
      simp at h1
      subst h1
      rfl

theorem pyOverflow_eq : pyOverflow = 2 ^ 1024 - 2 ^ 970 := by
  norm_num [pyOverflow]

theorem progress_bounds_applyMut (s : TaskProc) (mu : Mut)
    (h : 0 ≤ s.task.progress ∧ s.task.progress ≤ 100) :
    0 ≤ (applyMut s mu).task.progress ∧
    (applyMut s mu).task.progress ≤ 100 := by
  cases mu with
  | setProgress p =>
      cases p with
      | fin q => exact ⟨le_min (by norm_num) (le_max_left 0 q), min_le_left _ _⟩
      | posInf =>
          constructor <;> norm_num [applyMut, taskSetProgress, pyClamp]
      | negInf =>
          constructor <;> norm_num [applyMut, taskSetProgress, pyClamp]
      | nan =>
          constructor <;> norm_num [applyMut, taskSetProgress, pyClamp]
  | setStatus st step => simpa [applyMut, taskSetStatus] using h
  | log n m => simpa [applyMut, taskLog] using h
  | fail n m => simpa [applyMut, taskFail, taskLog] using h
  | setStart n => simpa [applyMut] using h
  | setEnd n => simpa [applyMut] using h
  | procSpawn => simpa [applyMut] using h
  | procExit => simpa [applyMut] using h

theorem progress_bounds_statesFrom (ms : List Mut) (s : TaskProc)
    (h : 0 ≤ s.task.progress ∧ s.task.progress ≤ 100) :
    ∀ u ∈ statesFrom s ms, 0 ≤ u.task.progress ∧ u.task.progress ≤ 100 := by
  induction ms generalizing s with
  | nil =>
      intro u hu
      simp [statesFrom] at hu
      subst hu
      exact h
  | cons m ms ih =>
      intro u hu
      simp only [statesFrom, List.mem_cons] at hu
      rcases hu with rfl | hu
      · exact h
      · exact ih (applyMut s m) (progress_bounds_applyMut s m h) u hu

theorem worker_final (e : WorkerEnv) (s : TaskProc)
    (hl : loginOk e.login = true) (hls : listOk e.listing = true)
    (hdl : dlOk e.download = true) :
    (runMuts s (workerMuts e)).task.status = .completed ∧
    (∀ f r c, e.validate = .ok f r c →
       (runMuts s (workerMuts e)).task.progress = 100) ∧
    (∀ msg, e.validate = .exn msg →
       (runMuts s (workerMuts e)).task.progress = 90) := by
  obtain ⟨n, lg, ls, dl, va⟩ := e
  cases lg with
  | timeout => simp [loginOk] at hl
  | exn m => simp [loginOk] at hl
  | res rc st =>
    simp only [loginOk, beq_iff_eq] at hl
    subst hl
    cases ls with
    | exn m => simp [listOk] at hls
    | res rc2 st2 =>
      simp only [listOk, beq_iff_eq] at hls
      subst hls
      cases dl with
      | exn m => simp [dlOk] at hdl
      | run lines rc3 =>
        simp only [dlOk, beq_iff_eq] at hdl
        subst hdl
        cases va with
        | ok f r c =>
            refine ⟨?_, ?_, ?_⟩
            · simp [workerMuts, loginMuts, listMuts, downloadMuts, validateMuts,
                    loginOk, listOk, dlOk, runMuts_append, runMuts_cons,
                    runMuts_nil, applyMut, taskSetStatus, taskSetProgress,
                    taskLog, pyClamp]
            · intro f' r' c' hv
              simp [workerMuts, loginMuts, listMuts, downloadMuts, validateMuts,
                    loginOk, listOk, dlOk, runMuts_append, runMuts_cons,
                    runMuts_nil, applyMut, taskSetStatus, taskSetProgress,
                    taskLog, pyClamp, clampQ]
            · intro msg hv
              cases hv
        | exn m =>
            refine ⟨?_, ?_, ?_⟩
            · simp [workerMuts, loginMuts, listMuts, downloadMuts, validateMuts,
                    loginOk, listOk, dlOk, runMuts_append, runMuts_cons,
                    runMuts_nil, applyMut, taskSetStatus, taskSetProgress,
                    taskLog, pyClamp]
            · intro f' r' c' hv
              cases hv
            · intro msg hv
              simp [workerMuts, loginMuts, listMuts, downloadMuts, validateMuts,
                    loginOk, listOk, dlOk, runMuts_append, runMuts_cons,
                    runMuts_nil, applyMut, taskSetStatus, taskSetProgress,
                    taskLog, pyClamp, clampQ]
              norm_num

/-- Claim C1, counterexample.  First conjunct: in the trace of a run whose
transfer prints a `50%` marker and then a `10%` marker, two successive task
states are both in the non-terminal `downloading` status while the stored
progress falls from 60 to 36 — so progress is not non-decreasing while the
status is non-terminal.  Second conjunct: when validation raises, the task
still ends `completed` but with progress 90 — so ending at exactly 100.0 is
not equivalent to ending `completed`. -/
theorem claim1_counterexample :
    (progressAt traceA 12 = some 60 ∧ progressAt traceA 13 = some 36 ∧
     statusAt traceA 12 = some .downloading ∧
     statusAt traceA 13 = some .downloading ∧ (36 : ℚ) < 60) ∧
    ((runMuts tp0 (workerMuts envD)).task.status = .completed ∧
     (runMuts tp0 (workerMuts envD)).task.progress = 90 ∧ (90 : ℚ) ≠ 100) := by
  with_unfolding_all decide

/-- Claim C2: the code violates terminality.  In the interleaved trace
`traceC`, an external cancellation during the Downloading stage makes the
status `cancelled` (a terminal status), yet the still-running worker later
overwrites it with `validating` and finally `completed`. -/
theorem claim2_terminal_status_overwritten :
    statusAt traceC 11 = some .cancelled ∧
    statusAt traceC 16 = some .validating ∧
    statusAt traceC 20 = some .completed := by
  with_unfolding_all decide

/-- Claim C3: the code violates the kill requirement.  `cancel_download`
never touches the child process (the frame property in the first conjunct
holds for every state), and concretely in `traceC` the cancel arrives while
the status is `downloading` with the transfer process running, flips the
status to `cancelled` immediately, and the process is still running in the
following states — it only stops when it exits on its own. -/
theorem claim3_cancel_leaves_child_running :
    (∀ (n : Nat) (s : TaskProc), (cancelAction n s).procRunning = s.procRunning) ∧
    (statusAt traceC 10 = some .downloading ∧ procAt traceC 10 = some true ∧
     statusAt traceC 11 = some .cancelled ∧ procAt traceC 11 = some true ∧
     procAt traceC 12 = some true) := by
  refine ⟨fun n s => ?_, ?_⟩
  · unfold cancelAction; split <;> rfl
  · with_unfolding_all decide

/-- Claim C4: the code violates id uniqueness.  Two `create_task` calls with
the same username in the same epoch second (`int(time.time()) = 100`)
produce the same id; the second call replaces the first record (here first
cancelled, hence observably distinct) with a fresh pending one, leaving a
single entry in the store. -/
theorem claim4_id_collision_overwrites :
    c4second.1 = c4first.1 ∧
    (storeGet c4cancelled.tasks c4first.1).map (fun t => t.status) =
      some .cancelled ∧
    (storeGet c4second.2.tasks c4first.1).map (fun t => t.status) =
      some .pending ∧
    c4second.2.tasks.length = 1 := by
  with_unfolding_all decide

/-- Claim C5, counterexample: the output line `abc 200%` parses to 200, the
claim's recomputed value `30 + (200/100)*60` is 150, but the stored progress
is 100 — clamped to `[0,100]` by `_update_progress`, not to `[30,90]`, so
the stored value neither equals the recomputed value nor lies in
`[30,90]`. -/
theorem claim5_counterexample :
    parsePercent (stripChars "abc 200%".toList) = some (.finite 200) ∧
    (30 + ((200 : ℚ) / 100) * 60 = 150) ∧
    (runMuts tDown (lineMuts 0 "abc 200%")).task.progress = 100 ∧
    ¬((runMuts tDown (lineMuts 0 "abc 200%")).task.progress ≤ 90) := by
  with_unfolding_all decide

/-- Claim C8, counterexample: `get_all_tasks` is a shallow copy.  The
snapshot taken from `hm0` holds the same record reference (cell 0) as the
store; mutating the record through that reference (progress 0 → 55) is
immediately observable through the store's own lookup. -/
theorem claim8_counterexample :
    refLookup (get_all_tasks hm0) "t" = some 0 ∧
    hGet hm0 "t" = some task0 ∧ task0.progress = 0 ∧
    hGet (writeRef hm0 0 task0') "t" = some task0' ∧
    task0'.progress = 55 := by
  with_unfolding_all decide

/-- Claim C6: log truncation.  Appending to a log of exactly 1000 entries
yields exactly the most recent 800 of the 1001 lines in order (the appended
list with its first 201 entries dropped); an append that leaves the length
at or below 1000 is a plain append, preserving all entries and order. -/
theorem claim6_log_truncation (log : List String) (m : String) :
    (log.length = 1000 →
      logAppend log m = (log ++ [m]).drop 201 ∧
      (logAppend log m).length = 800) ∧
    (log.length ≤ 999 → logAppend log m = log ++ [m]) := by
  constructor
  · intro h
    have hlen : (log ++ [m]).length = 1001 := by simp [h]
    constructor
    · simp only [logAppend, hlen]; norm_num
    · simp only [logAppend, hlen]; norm_num; omega
  · intro h
    have hlen : (log ++ [m]).length = log.length + 1 := by simp
    simp only [logAppend, hlen]
    have : ¬ (log.length + 1 > 1000) := by omega
    simp [this]

/-- Witness for C6 at a concrete 1000-entry log and a concrete 999-entry
log. -/
theorem claim6_log_truncation_witness :
    ((List.replicate 1000 "x").length = 1000 ∧
      logAppend (List.replicate 1000 "x") "y" =
        ((List.replicate 1000 "x") ++ ["y"]).drop 201 ∧
      (logAppend (List.replicate 1000 "x") "y").length = 800) ∧
    ((List.replicate 999 "x").length ≤ 999 ∧
      logAppend (List.replicate 999 "x") "y" =
        (List.replicate 999 "x") ++ ["y"]) := by
  have h1 := (claim6_log_truncation (List.replicate 1000 "x") "y").1
    (by simp only [List.length_replicate])
  have h2 := (claim6_log_truncation (List.replicate 999 "x") "y").2
    (by simp only [List.length_replicate]; omega)
  exact ⟨⟨by simp only [List.length_replicate], h1.1, h1.2⟩,
         ⟨by simp only [List.length_replicate]; omega, h2⟩⟩

theorem refLookup_refErase_self (l : List (String × Nat)) (tid : String) :
    refLookup (refErase l tid) tid = none := by
  induction l with
  | nil => simp [refErase, refLookup]
  | cons p ps ih =>
      by_cases h : p.1 = tid
      · simp [refErase, refLookup, h, ih]
      · simp [refErase, refLookup, h, ih]

theorem mutOk_log (n : Nat) (m : String) : mutOk (.log n m) :=
  ⟨(fun _ _ h => nomatch h), (fun _ _ h => nomatch h)⟩

theorem mutOk_setProgress (p : PyQ) : mutOk (.setProgress p) :=
  ⟨(fun _ _ h => nomatch h), (fun _ _ h => nomatch h)⟩

theorem mutOk_setStart (n : Nat) : mutOk (.setStart n) :=
  ⟨(fun _ _ h => nomatch h), (fun _ _ h => nomatch h)⟩

theorem mutOk_setEnd (n : Nat) : mutOk (.setEnd n) :=
  ⟨(fun _ _ h => nomatch h), (fun _ _ h => nomatch h)⟩

theorem mutOk_procSpawn : mutOk .procSpawn :=
  ⟨(fun _ _ h => nomatch h), (fun _ _ h => nomatch h)⟩

theorem mutOk_procExit : mutOk .procExit :=
  ⟨(fun _ _ h => nomatch h), (fun _ _ h => nomatch h)⟩

theorem mutOk_fail {n : Nat} {msg : String} (h : msg ≠ "") :
    mutOk (.fail n msg) :=
  ⟨(fun _ _ he => by cases he; exact h), (fun _ _ he => nomatch he)⟩

theorem mutOk_setStatus {st : DownloadStatus} {step : String}
    (h : st ≠ .failed) : mutOk (.setStatus st step) :=
  ⟨(fun _ _ he => nomatch he), (fun st' step' he => by cases he; exact h)⟩

theorem mutOk_lineMuts (n : Nat) (line : String) (mu : Mut)
    (h : mu ∈ lineMuts n line) : mutOk mu := by
  simp only [lineMuts, List.mem_cons] at h
  rcases h with rfl | h
  · exact mutOk_log _ _
  · split at h
    · split at h
      · simp at h
        subst h
        exact mutOk_setProgress _
      · simp at h
    · simp at h

theorem mutOk_loginMuts (n : Nat) (lg : LoginOutcome) (mu : Mut)
    (h : mu ∈ loginMuts n lg) : mutOk mu := by
  cases lg with
  | res rc st =>
      by_cases hrc : rc = 0
      · simp [loginMuts, hrc] at h
        rcases h with rfl | rfl
        · exact mutOk_log _ _
        · exact mutOk_setProgress _
      · simp [loginMuts, hrc] at h
        subst h
        exact mutOk_fail (append_ne_empty _ _ (by decide))
  | timeout =>
      simp [loginMuts] at h
      subst h
      exact mutOk_fail (by decide)
  | exn m =>
      simp [loginMuts] at h
      subst h
      exact mutOk_fail (append_ne_empty _ _ (by decide))

theorem mutOk_listMuts (n : Nat) (ls : ListOutcome) (mu : Mut)
    (h : mu ∈ listMuts n ls) : mutOk mu := by
  cases ls with
  | res rc st =>
      by_cases hrc : rc = 0
      · simp [listMuts, hrc] at h
        rcases h with rfl | rfl
        · exact mutOk_log _ _
        · exact mutOk_setProgress _
      · simp [listMuts, hrc] at h
        subst h
        exact mutOk_fail (append_ne_empty _ _ (by decide))
  | exn m =>
      simp [listMuts] at h
      subst h
      exact mutOk_fail (append_ne_empty _ _ (by decide))

theorem mutOk_downloadMuts (n : Nat) (dl : DownloadOutcome) (mu : Mut)
    (h : mu ∈ downloadMuts n dl) : mutOk mu := by
  cases dl with
  | run lines rc =>
      simp only [downloadMuts, List.mem_cons, List.mem_append,
        List.mem_flatMap] at h
      rcases h with rfl | ⟨⟨line, _, hline⟩ | h⟩ | h
      · exact mutOk_procSpawn
      · exact mutOk_lineMuts n line mu hline
      · simp at h
        subst h
        exact mutOk_procExit
      · by_cases hrc : rc = 0
        · simp [hrc] at h
          rcases h with rfl | rfl
          · exact mutOk_log _ _
          · exact mutOk_setProgress _
        · simp [hrc] at h
          subst h
          exact mutOk_fail (by decide)
  | exn m =>
      simp [downloadMuts] at h
      subst h
      exact mutOk_fail (append_ne_empty _ _ (by decide))

theorem mutOk_validateMuts (n : Nat) (va : ValidateOutcome) (mu : Mut)
    (h : mu ∈ validateMuts n va) : mutOk mu := by
  cases va with
  | ok f r c =>
      simp only [validateMuts, List.mem_append] at h
      rcases h with h | h
      · split at h
        · simp at h
          subst h
          exact mutOk_log _ _
        · simp only [List.mem_cons, List.mem_flatMap] at h
          rcases h with rfl | ⟨p, _, hp⟩
          · exact mutOk_log _ _
          · simp at hp
            subst hp
            exact mutOk_log _ _
      · simp at h
        rcases h with rfl | rfl
        · exact mutOk_log _ _
        · exact mutOk_setProgress _
  | exn m =>
      simp [validateMuts] at h
      subst h
      exact mutOk_log _ _

theorem mutOk_workerMuts (e : WorkerEnv) (mu : Mut)
    (h : mu ∈ workerMuts e) : mutOk mu := by
  simp only [workerMuts, List.mem_append, List.mem_cons,
    List.not_mem_nil, or_false] at h
  rcases h with ((rfl | rfl) | h) | h
  · exact mutOk_setStart _
  · exact mutOk_setStatus (by intro hst; cases hst)
  · exact mutOk_loginMuts _ _ _ h
  · by_cases hl : loginOk e.login
    · simp only [hl, if_true, List.mem_cons, List.mem_append] at h
      rcases h with (rfl | h) | h
      · exact mutOk_setStatus (by intro hst; cases hst)
      · exact mutOk_listMuts _ _ _ h
      · by_cases hls : listOk e.listing
        · simp only [hls, if_true, List.mem_cons, List.mem_append] at h
          rcases h with (rfl | h) | h
          · exact mutOk_setStatus (by intro hst; cases hst)
          · exact mutOk_downloadMuts _ _ _ h
          · by_cases hdl : dlOk e.download
            · simp only [hdl, if_true, List.mem_cons, List.mem_append] at h
              rcases h with (rfl | h) | h
              · exact mutOk_setStatus (by intro hst; cases hst)
              · exact mutOk_validateMuts _ _ _ h
              · simp at h
                rcases h with rfl | rfl | rfl
                · exact mutOk_setStatus (by intro hst; cases hst)
                · exact mutOk_setEnd _
                · exact mutOk_log _ _
            · simp [hdl] at h
        · simp [hls] at h
    · simp [hl] at h

/-- Claim C1, amended: every stored progress value stays within
`[0.0, 100.0]` (each write is clamped), though it may decrease during
Downloading; and when all external stages succeed the task ends `completed`
with progress exactly 100.0 when the validation stage raises no exception,
and with progress 90.0 when validation raises. -/
theorem claim1_amended (e : WorkerEnv) (s : TaskProc)
    (h0 : 0 ≤ s.task.progress) (h1 : s.task.progress ≤ 100) :
    (∀ u ∈ statesFrom s (workerMuts e),
        0 ≤ u.task.progress ∧ u.task.progress ≤ 100) ∧
    (loginOk e.login = true → listOk e.listing = true →
      dlOk e.download = true →
      (runMuts s (workerMuts e)).task.status = .completed ∧
      (∀ f r c, e.validate = .ok f r c →
          (runMuts s (workerMuts e)).task.progress = 100) ∧
      (∀ msg, e.validate = .exn msg →
          (runMuts s (workerMuts e)).task.progress = 90)) :=
  ⟨progress_bounds_statesFrom _ s ⟨h0, h1⟩,
   fun hl hls hdl => worker_final e s hl hls hdl⟩

/-- Witness for the amended C1 at the concrete successful environment
`envB` and at `envD` (validation raising). -/
theorem claim1_amended_witness :
    ((runMuts tp0 (workerMuts envB)).task.status = .completed ∧
     (runMuts tp0 (workerMuts envB)).task.progress = 100) ∧
    ((runMuts tp0 (workerMuts envD)).task.status = .completed ∧
     (runMuts tp0 (workerMuts envD)).task.progress = 90) := by
  have hB := (claim1_amended envB tp0 (le_refl 0)
    (by norm_num [tp0, task0])).2 (by decide) (by decide) (by decide)
  have hD := (claim1_amended envD tp0 (le_refl 0)
    (by norm_num [tp0, task0])).2 (by decide) (by decide) (by decide)
  exact ⟨⟨hB.1, hB.2.1 [] [] 0 rfl⟩, ⟨hD.1, hD.2.2 "chdir error" rfl⟩⟩

/-- Claim C5, amended: during Downloading, a line containing `%` whose
percent token `float()`-parses to a finite `p` makes the stored progress
`clamp(30 + (p/100)*60, 0, 100)` — the clamp of `_update_progress` is to
`[0,100]`, not `[30,90]`, though the stored value does lie in `[30,90]`
whenever `p ∈ [0,100]` — while the status is untouched.  A token parsing to
`inf` stores 100, one parsing to `-inf` or `nan` stores 0 (Python
`min`/`max` under IEEE comparisons).  A line without `%`, a line with no
token before its first `%` (IndexError), or an ASCII token that `float()`
rejects (ValueError) leaves both progress and status unchanged — such lines
never fail the task.  (Tokens with non-ASCII characters are outside the
model, see `parsePyFloat`.) -/
theorem claim5_amended (s : TaskProc) (now : Nat) (line : String) :
    (∀ p : ℚ, (stripChars line.toList).contains '%' = true →
      parsePercent (stripChars line.toList) = some (.finite p) →
      (runMuts s (lineMuts now line)).task.progress =
        clampQ (30 + (p / 100) * 60) ∧
      (runMuts s (lineMuts now line)).task.status = s.task.status ∧
      (0 ≤ p → p ≤ 100 →
        30 ≤ (runMuts s (lineMuts now line)).task.progress ∧
        (runMuts s (lineMuts now line)).task.progress ≤ 90)) ∧
    ((stripChars line.toList).contains '%' = true →
      parsePercent (stripChars line.toList) = some .posInf →
      (runMuts s (lineMuts now line)).task.progress = 100 ∧
      (runMuts s (lineMuts now line)).task.status = s.task.status) ∧
    ((stripChars line.toList).contains '%' = true →
      (parsePercent (stripChars line.toList) = some .negInf ∨
        parsePercent (stripChars line.toList) = some .nan) →
      (runMuts s (lineMuts now line)).task.progress = 0 ∧
      (runMuts s (lineMuts now line)).task.status = s.task.status) ∧
    (((stripChars line.toList).contains '%' = false ∨
      percentToken (stripChars line.toList) = none ∨
      (∃ t, percentToken (stripChars line.toList) = some t ∧
        isAsciiToken t = true ∧ parsePyFloat t = none)) →
      (runMuts s (lineMuts now line)).task.progress = s.task.progress ∧
      (runMuts s (lineMuts now line)).task.status = s.task.status) := by
  have key : ∀ v : PyFloat, '%' ∈ stripChars line.data →
      parsePercent (stripChars line.data) = some v →
      lineMuts now line =
        [Mut.log now (String.mk (stripChars line.data)),
         Mut.setProgress (pyProg v)] := by
    intro v hc hp
    simp [lineMuts, String.toList, hc, hp]
  have keyNone : parsePercent (stripChars line.data) = none →
      lineMuts now line =
        [Mut.log now (String.mk (stripChars line.data))] := by
    intro hp
    by_cases hc : '%' ∈ stripChars line.data
    · simp [lineMuts, String.toList, hc, hp]
    · simp [lineMuts, String.toList, hc]
  have keyNoPct : ¬('%' ∈ stripChars line.data) →
      lineMuts now line =
        [Mut.log now (String.mk (stripChars line.data))] := by
    intro hc
    simp [lineMuts, String.toList, hc]
  refine ⟨?_, ?_, ?_, ?_⟩
  · intro p hc hp
    have hc' : '%' ∈ stripChars line.data := by
      simpa [String.toList] using hc
    have hp' : parsePercent (stripChars line.data) = some (.finite p) := by
      simpa [String.toList] using hp
    rw [key (.finite p) hc' hp']
    have hval : (runMuts s
        [Mut.log now (String.mk (stripChars line.data)),
         Mut.setProgress (pyProg (.finite p))]).task.progress =
        clampQ (30 + (p / 100) * 60) := by
      simp [runMuts_cons, runMuts_nil, applyMut, taskLog, taskSetProgress,
        pyProg, pyClamp]
    refine ⟨hval, ?_, ?_⟩
    · simp [runMuts_cons, runMuts_nil, applyMut, taskLog, taskSetProgress]
    · intro hp0 hp1
      have h35 : (p / 100) * 60 = p * (3 / 5) := by ring
      have hlo : (0 : ℚ) ≤ p * (3 / 5) := mul_nonneg hp0 (by norm_num)
      have hhi : p * (3 / 5) ≤ 100 * (3 / 5) :=
        mul_le_mul_of_nonneg_right hp1 (by norm_num)
      have hx0 : (30 : ℚ) ≤ 30 + (p / 100) * 60 := by rw [h35]; linarith
      have hx1 : 30 + (p / 100) * 60 ≤ (90 : ℚ) := by rw [h35]; linarith
      have hcl : clampQ (30 + (p / 100) * 60) = 30 + (p / 100) * 60 := by
        unfold clampQ
        rw [max_eq_right (le_trans (by norm_num) hx0),
            min_eq_right (le_trans hx1 (by norm_num))]
      rw [hval, hcl]
      exact ⟨hx0, hx1⟩
  · intro hc hp
    have hc' : '%' ∈ stripChars line.data := by
      simpa [String.toList] using hc
    have hp' : parsePercent (stripChars line.data) = some .posInf := by
      simpa [String.toList] using hp
    rw [key .posInf hc' hp']
    constructor
    · simp [runMuts_cons, runMuts_nil, applyMut, taskLog, taskSetProgress,
        pyProg, pyClamp]
    · simp [runMuts_cons, runMuts_nil, applyMut, taskLog, taskSetProgress]
  · intro hc hp
    have hc' : '%' ∈ stripChars line.data := by
      simpa [String.toList] using hc
    have hlm : lineMuts now line =
        [Mut.log now (String.mk (stripChars line.data)),
         Mut.setProgress PyQ.negInf] ∨
        lineMuts now line =
          [Mut.log now (String.mk (stripChars line.data)),
           Mut.setProgress PyQ.nan] := by
      rcases hp with hp | hp
      · left
        have hp' : parsePercent (stripChars line.data) = some .negInf := by
          simpa [String.toList] using hp
        simpa [pyProg] using key .negInf hc' hp'
      · right
        have hp' : parsePercent (stripChars line.data) = some .nan := by
          simpa [String.toList] using hp
        simpa [pyProg] using key .nan hc' hp'
    rcases hlm with hlm | hlm <;> rw [hlm] <;> constructor <;>
      simp [runMuts_cons, runMuts_nil, applyMut, taskLog, taskSetProgress,
        pyClamp]
  · intro h
    have hlm : lineMuts now line =
        [Mut.log now (String.mk (stripChars line.data))] := by
      rcases h with hc | htok | ⟨t, ht, _, hpf⟩
      · refine keyNoPct ?_
        simpa [String.toList] using hc
      · refine keyNone ?_
        have ht' : percentToken (stripChars line.data) = none := by
          simpa [String.toList] using htok
        simp [parsePercent, ht']
      · refine keyNone ?_
        have ht' : percentToken (stripChars line.data) = some t := by
          simpa [String.toList] using ht
        simp [parsePercent, ht', hpf]
    rw [hlm]
    constructor
    · simp [runMuts_cons, runMuts_nil, applyMut, taskLog]
    · simp [runMuts_cons, runMuts_nil, applyMut, taskLog]

/-- Witness for the amended C5: a parsable 50% line recomputes progress to
60 (inside `[30, 90]`); an out-of-range `1e400` saturates to `inf` and
stores 100; a percent-free line and an ASCII-unparsable token (`v50`) leave
progress at 30. -/
theorem claim5_amended_witness :
    ((runMuts tDown (lineMuts 3 "abc 50%")).task.progress =
       clampQ (30 + ((50 : ℚ) / 100) * 60) ∧
     (runMuts tDown (lineMuts 3 "abc 50%")).task.status =
       tDown.task.status ∧
     30 ≤ (runMuts tDown (lineMuts 3 "abc 50%")).task.progress ∧
     (runMuts tDown (lineMuts 3 "abc 50%")).task.progress ≤ 90) ∧
    ((runMuts tDown (lineMuts 3 "done 1e400%")).task.progress = 100 ∧
     (runMuts tDown (lineMuts 3 "done 1e400%")).task.status =
       tDown.task.status) ∧
    ((runMuts tDown (lineMuts 3 "no marker")).task.progress =
       tDown.task.progress ∧
     (runMuts tDown (lineMuts 3 "no marker")).task.status =
       tDown.task.status) ∧
    ((runMuts tDown (lineMuts 3 "done v50%")).task.progress =
       tDown.task.progress ∧
     (runMuts tDown (lineMuts 3 "done v50%")).task.status =
       tDown.task.status) := by
  have h1 := (claim5_amended tDown 3 "abc 50%").1 50 (by decide)
    (by with_unfolding_all decide)
  have hb := h1.2.2 (by norm_num) (by norm_num)
  have hinf := (claim5_amended tDown 3 "done 1e400%").2.1 (by decide)
    (by set_option maxRecDepth 4000 in with_unfolding_all decide)
  have h2 := (claim5_amended tDown 3 "no marker").2.2.2 (Or.inl (by decide))
  have h3 := (claim5_amended tDown 3 "done v50%").2.2.2
    (Or.inr (Or.inr ⟨['v', '5', '0'], by decide, by decide,
      by with_unfolding_all decide⟩))
  exact ⟨⟨h1.1, h1.2.1, hb.1, hb.2⟩, hinf, h2, h3⟩

/-- Claim C7: if the lnd tool is unavailable (`avail = false`, the
`_check_lnd_command` filesystem probe) when `start_download` is called on a
Pending task, the call returns failure, the task is marked Failed with the
tool-unavailable error message (and its finish timestamp), and no worker
thread is registered (`_running_tasks` unchanged). -/
theorem claim7_tool_unavailable (m : Manager) (tid : String) (t : DownloadTask)
    (now : Nat) (hget : storeGet m.tasks tid = some t)
    (hp : t.status = .pending) :
    (start_download m tid false now).1 = false ∧
    (start_download m tid false now).2.running = m.running ∧
    ∃ t', storeGet (start_download m tid false now).2.tasks tid = some t' ∧
      t'.status = .failed ∧ t'.error_message = "lnd命令不可用" ∧
      t'.end_time = some now := by
  have hsd1 : (start_download m tid false now).1 = false := by
    simp [start_download, hget, hp]
  have hsd2 : (start_download m tid false now).2.running = m.running := by
    simp [start_download, hget, hp]
  have hsd3 : (start_download m tid false now).2.tasks =
      storeModify m.tasks tid (taskFail now "lnd命令不可用") := by
    simp [start_download, hget, hp]
  refine ⟨hsd1, hsd2, taskFail now "lnd命令不可用" t, ?_, rfl, rfl, rfl⟩
  rw [hsd3]
  simp [storeGet_storeModify, hget]

/-- Witness for C7 at a concrete one-task store holding a pending task. -/
theorem claim7_tool_unavailable_witness :
    (start_download mgr7 "t" false 7).1 = false ∧
    (start_download mgr7 "t" false 7).2.running = mgr7.running ∧
    ∃ t', storeGet (start_download mgr7 "t" false 7).2.tasks "t" = some t' ∧
      t'.status = .failed ∧ t'.error_message = "lnd命令不可用" ∧
      t'.end_time = some 7 :=
  claim7_tool_unavailable mgr7 "t" task0 7 (by decide) (by decide)

/-- Claim C10: `create_task` deposits, under the id it returns, a record
with status Pending, progress 0, empty error message, unset start and end
timestamps, and a log holding exactly the one creation line. -/
theorem claim10_create_task_initial_record (m : Manager) (info : NovoGeneInfo)
    (dir : String) (now : Nat) :
    ∃ t, storeGet (create_task m info dir now).2.tasks
        (create_task m info dir now).1 = some t ∧
      t.status = .pending ∧ t.progress = 0 ∧ t.error_message = "" ∧
      t.start_time = none ∧ t.end_time = none ∧
      t.log_messages = [logLine now
        ("任务创建: " ++ ("task_" ++ toString now ++ "_" ++ info.username))] := by
  refine ⟨taskLog now
    ("任务创建: " ++ ("task_" ++ toString now ++ "_" ++ info.username))
    { task_id := "task_" ++ toString now ++ "_" ++ info.username,
      info := info, download_dir := dir }, ?_, rfl, rfl, rfl, rfl, rfl, ?_⟩
  · simp [create_task, storeGet_storeModify, storeGet_storeSet]
  · simp [taskLog, logAppend]


/-- Claim C8, amended: `get_all_tasks` returns a copy of the id→record
mapping whose entries hold the same record references.  The mapping itself
is isolated — removing the task from the store afterwards does not affect
the already-taken snapshot, though the store itself no longer resolves the
id — but the records are shared: a record mutation through the snapshot's
reference is observable through the store's lookup, and vice versa through
any holder of the reference. -/
theorem claim8_amended (m : HManager) (tid : String) (r : Nat)
    (t' : DownloadTask) (hsnap : refLookup (get_all_tasks m) tid = some r)
    (hr : r < m.heap.length) :
    hGet (writeRef m r t') tid = some t' ∧
    readRef (writeRef m r t') r = some t' ∧
    refLookup (get_all_tasks (hRemove m tid)) tid = none ∧
    refLookup (get_all_tasks m) tid = some r := by
  refine ⟨?_, ?_, ?_, hsnap⟩
  · simp only [get_all_tasks] at hsnap
    simp only [hGet, writeRef]
    rw [hsnap]
    simp [readRef, List.getElem?_set_eq_of_lt t' hr]
  · simp [readRef, writeRef, List.getElem?_set_eq_of_lt t' hr]
  · simp [get_all_tasks, hRemove, refLookup_refErase_self]

/-- Witness for the amended C8 at the concrete one-record heap `hm0`. -/
theorem claim8_amended_witness :
    hGet (writeRef hm0 0 task0') "t" = some task0' ∧
    readRef (writeRef hm0 0 task0') 0 = some task0' ∧
    refLookup (get_all_tasks (hRemove hm0 "t")) "t" = none ∧
    refLookup (get_all_tasks hm0) "t" = some 0 :=
  claim8_amended hm0 "t" 0 task0' (by decide) (by decide)

/-- Claim C9: within the worker pipeline, any mutation that flips a task's
status to Failed is a `_set_task_failed` write, which sets a nonempty error
message and the finish timestamp in the same update; `cancel_download` on a
non-terminal task reports success and flips the status to Cancelled while
leaving `error_message` and `end_time` exactly as they were. -/
theorem claim9_failed_and_cancel_updates :
    (∀ (e : WorkerEnv) (mu : Mut) (s : TaskProc), mu ∈ workerMuts e →
      s.task.status ≠ .failed → (applyMut s mu).task.status = .failed →
      (applyMut s mu).task.error_message ≠ "" ∧
      (applyMut s mu).task.end_time.isSome = true) ∧
    (∀ (m : Manager) (tid : String) (now : Nat) (t : DownloadTask),
      storeGet m.tasks tid = some t → t.status.isTerminal = false →
      (cancel_download m tid now).1 = true ∧
      ∃ t', storeGet (cancel_download m tid now).2.tasks tid = some t' ∧
        t'.status = .cancelled ∧ t'.error_message = t.error_message ∧
        t'.end_time = t.end_time) := by
  constructor
  · intro e mu s hmu hne hnew
    have hok := mutOk_workerMuts e mu hmu
    cases mu with
    | setStart n =>
        simp [applyMut] at hnew
        exact absurd hnew hne
    | setStatus st step =>
        exfalso
        apply hok.2 st step rfl
        simpa [applyMut, taskSetStatus] using hnew
    | setProgress p =>
        simp [applyMut, taskSetProgress] at hnew
        exact absurd hnew hne
    | log n m2 =>
        simp [applyMut, taskLog] at hnew
        exact absurd hnew hne
    | fail n msg =>
        refine ⟨?_, ?_⟩
        · simpa [applyMut, taskFail, taskLog] using hok.1 n msg rfl
        · simp [applyMut, taskFail, taskLog]
    | setEnd n =>
        simp [applyMut] at hnew
        exact absurd hnew hne
    | procSpawn =>
        simp [applyMut] at hnew
        exact absurd hnew hne
    | procExit =>
        simp [applyMut] at hnew
        exact absurd hnew hne
  · intro m tid now t hget ht
    have h1 : (cancel_download m tid now).1 = true := by
      simp [cancel_download, hget, ht]
    have h2 : (cancel_download m tid now).2.tasks =
        storeModify m.tasks tid
          (fun u => taskLog now "任务已取消" (taskSetStatus .cancelled "" u)) := by
      simp [cancel_download, hget, ht]
    refine ⟨h1, taskLog now "任务已取消" (taskSetStatus .cancelled "" t),
      ?_, rfl, rfl, rfl⟩
    rw [h2, storeGet_storeModify, hget]
    rfl

/-- Witness for C9: the login-timeout failure write at `envT`, and a cancel
of the concrete pending task of `mgr7`. -/
theorem claim9_witness :
    ((applyMut tp0 (Mut.fail 0 "登录超时")).task.error_message ≠ "" ∧
     (applyMut tp0 (Mut.fail 0 "登录超时")).task.end_time.isSome = true) ∧
    ((cancel_download mgr7 "t" 5).1 = true ∧
     ∃ t', storeGet (cancel_download mgr7 "t" 5).2.tasks "t" = some t' ∧
       t'.status = .cancelled ∧ t'.error_message = task0.error_message ∧
       t'.end_time = task0.end_time) :=
  ⟨claim9_failed_and_cancel_updates.1 envT (Mut.fail 0 "登录超时") tp0
      (by decide) (by decide) (by decide),
   claim9_failed_and_cancel_updates.2 mgr7 "t" 5 task0
      (by decide) (by decide)⟩

end NovoDL
